import Mathlib

/-!
Verification of the PyWren / Google Books notebook.

The notebook's code reads a flat file of ISBN identifiers, performs one
HTTP GET per identifier against the Google Books API, parses the JSON
response, extracts the nested field
`data['items'][0]['volumeInfo']['description']` inside a
`try ... except KeyError` block, and records the whitespace word count of
the description (or `0` when a `KeyError` is raised).

We embed the JSON values returned by `r.json()` as an inductive type,
Python subscripting with its exception behaviour (`KeyError`,
`IndexError`, `TypeError`, `AttributeError`) as functions into
`Except PyErr`, and the HTTP layer as a pure function from URL strings to
parsed JSON responses.  `get_desc_wc` and `get_desc_wc_parallel` are then
translated statement by statement from the notebook cells.
-/

/-- Python exceptions that the subscript / attribute operations below can
raise. -/
inductive PyErr where
  | keyError
  | indexError
  | typeError
  | attributeError
deriving DecidableEq, Repr

/-- Parsed JSON values, as returned by `r.json()` in the notebook. -/
inductive Json where
  | null : Json
  | bool : Bool → Json
  | num : Int → Json
  | str : String → Json
  | arr : List Json → Json
  | obj : List (String × Json) → Json

/-- Python's whitespace test for `str.split()` and `str.strip()`:
the six ASCII whitespace characters. -/
def pyIsSpace (c : Char) : Bool :=
  c == ' ' || c == '\t' || c == '\n' || c == '\r' || c == '\x0b' || c == '\x0c'

/-- Helper for `str.split()` with no separator: scan the characters,
accumulating the current token (reversed); whitespace ends a token, and
empty tokens are never produced. -/
def pySplitAux : List Char → List Char → List (List Char)
  | [], [] => []
  | [], tok => [tok.reverse]
  | c :: cs, tok =>
    if pyIsSpace c then
      match tok with
      | [] => pySplitAux cs []
      | _ => tok.reverse :: pySplitAux cs []
    else pySplitAux cs (c :: tok)

/-- Python `s.split()`: split on runs of whitespace, discarding empty
tokens. -/
def pySplit (s : String) : List String :=
  (pySplitAux s.data []).map String.mk

/-- `len(s.split())` — the word count used throughout the notebook. -/
def pyWc (s : String) : Nat :=
  (pySplit s).length

/-- Python `s.strip()`: drop leading and trailing whitespace. -/
def pyStrip (s : String) : String :=
  String.mk (((s.data.dropWhile pyIsSpace).reverse.dropWhile pyIsSpace).reverse)

/-- Iterating over an open text file in Python yields its lines with the
trailing newline kept; a final chunk without a newline is still yielded,
and a file ending in a newline yields no extra empty line.  Helper on
character lists, accumulating the current line reversed. -/
def pyFileLinesAux : List Char → List Char → List (List Char)
  | [], [] => []
  | [], acc => [acc.reverse]
  | c :: cs, acc =>
    if c = '\n' then (acc.reverse ++ ['\n']) :: pyFileLinesAux cs []
    else pyFileLinesAux cs (c :: acc)

/-- The lines of a file's contents, as Python file iteration yields them. -/
def pyFileLines (s : String) : List String :=
  (pyFileLinesAux s.data []).map String.mk

/-- `isbn_list = [isbn.strip() for isbn in file]` from the first notebook
cell, as a function of the contents of `isbn.txt`. -/
def isbn_list (file : String) : List String :=
  (pyFileLines file).map pyStrip

/-- Python subscripting with a string key, `x['k']`: a dict lookup that
raises `KeyError` when the key is absent, and `TypeError` when `x` is not
a dict. -/
def Json.getKey : Json → String → Except PyErr Json
  | .obj kvs, k =>
    match kvs.lookup k with
    | some v => .ok v
    | none => .error .keyError
  | _, _ => .error .typeError

/-- Python subscripting with the literal index `0`-style nonnegative int,
`x[i]`: list indexing raises `IndexError` out of range; a dict parsed
from JSON has only string keys, so an int subscript raises `KeyError`;
strings index to one-character strings; other values raise `TypeError`. -/
def Json.getIdx : Json → Nat → Except PyErr Json
  | .arr xs, i =>
    match xs.get? i with
    | some v => .ok v
    | none => .error .indexError
  | .obj _, _ => .error .keyError
  | .str s, i =>
    match s.data.get? i with
    | some c => .ok (.str (String.mk [c]))
    | none => .error .indexError
  | _, _ => .error .typeError

/-- The nested lookup `data['items'][0]['volumeInfo']['description']`,
each subscript evaluated left to right, the first exception aborting. -/
def descPath (data : Json) : Except PyErr Json :=
  match data.getKey "items" with
  | .error e => .error e
  | .ok items =>
    match items.getIdx 0 with
    | .error e => .error e
    | .ok item0 =>
      match item0.getKey "volumeInfo" with
      | .error e => .error e
      | .ok vinfo => vinfo.getKey "description"

/-- Python `description.split()` requires `description` to be a string;
`.split` on any other value raises `AttributeError`.  Returns
`len(description.split())`. -/
def Json.splitLen : Json → Except PyErr Nat
  | .str s => .ok (pyWc s)
  | _ => .error .attributeError

/-- The body of the `try` block shared by both notebook functions:
`description = data['items'][0]['volumeInfo']['description']` followed by
`len(description.split())`. -/
def descTokenCount (data : Json) : Except PyErr Nat :=
  match descPath data with
  | .error e => .error e
  | .ok description => description.splitLen

/-- `url = "https://www.googleapis.com/books/v1/volumes?q=isbn:"`. -/
def url : String :=
  "https://www.googleapis.com/books/v1/volumes?q=isbn:"

/-- `get_desc_wc_parallel(isbn)`: `wc = 0`, GET `url + isbn`, parse JSON,
try the nested lookup and word count; `except KeyError: pass` leaves
`wc = 0`; any other exception propagates.  The HTTP layer is the
parameter `fetch`, mapping a request URL to the parsed JSON response. -/
def get_desc_wc_parallel (fetch : String → Json) (isbn : String) :
    Except PyErr Nat :=
  let wc : Nat := 0
  let data := fetch (url ++ isbn)
  match descTokenCount data with
  | .ok n => .ok n
  | .error .keyError => .ok wc
  | .error e => .error e

/-- The `for isbn in isbn_list` loop of `get_desc_wc`, carrying the
accumulated `wc_list`.  Each iteration performs the GET, tries the nested
lookup, appends the word count (or `0` on `KeyError`); an uncaught
exception aborts the whole call. -/
def get_desc_wc_go (fetch : String → Json) :
    List String → List Nat → Except PyErr (List Nat)
  | [], wc_list => .ok wc_list
  | isbn :: rest, wc_list =>
    let data := fetch (url ++ isbn)
    match descTokenCount data with
    | .ok n => get_desc_wc_go fetch rest (wc_list ++ [n])
    | .error .keyError => get_desc_wc_go fetch rest (wc_list ++ [0])
    | .error e => .error e

/-- `get_desc_wc(isbn_list)`: start from the empty `wc_list` and run the
loop. -/
def get_desc_wc (fetch : String → Json) (isbns : List String) :
    Except PyErr (List Nat) :=
  get_desc_wc_go fetch isbns []

/-- The loop of `get_desc_wc`, additionally recording the list of request
URLs passed to `requests.get`, in the order they are issued. -/
def get_desc_wc_go_tr (fetch : String → Json) :
    List String → List Nat → List String →
      List String × Except PyErr (List Nat)
  | [], wc_list, reqs => (reqs, .ok wc_list)
  | isbn :: rest, wc_list, reqs =>
    let req := url ++ isbn
    match descTokenCount (fetch req) with
    | .ok n => get_desc_wc_go_tr fetch rest (wc_list ++ [n]) (reqs ++ [req])
    | .error .keyError =>
        get_desc_wc_go_tr fetch rest (wc_list ++ [0]) (reqs ++ [req])
    | .error e => (reqs ++ [req], .error e)

/-- The request URLs issued by a call `get_desc_wc(isbn_list)`. -/
def get_desc_wc_requests (fetch : String → Json) (isbns : List String) :
    List String :=
  (get_desc_wc_go_tr fetch isbns [] []).1

/-- Element-by-element application of a fallible function to a list, with
the first exception aborting: the meaning of mapping the single-item
function over a list of ISBNs. -/
def exceptMap (g : α → Except ε β) : List α → Except ε (List β)
  | [] => .ok []
  | a :: l =>
    match g a with
    | .error e => .error e
    | .ok b =>
      match exceptMap g l with
      | .error e => .error e
      | .ok bs => .ok (b :: bs)

/-- Python `range(0, stop, step)` for `step > 0`: the multiples of `step`
below `stop`. -/
def pyRangeStep (stop step : Nat) : List Nat :=
  List.range' 0 ((stop + step - 1) / step) step

/-- Python slice `l[i : i + n]` for nonnegative `i` and `n`: at most `n`
elements starting at index `i`, clamped to the list. -/
def pySlice (l : List α) (i n : Nat) : List α :=
  (l.drop i).take n

/-- `isbn_batches = [isbn_list[i:i + n] for i in range(0, len(isbn_list), n)]`
from the batching cell, generalised over the batch size `n`. -/
def isbn_batches (l : List String) (n : Nat) : List (List String) :=
  (pyRangeStep l.length n).map (fun i => pySlice l i n)

/-- A response whose top-level object has no `items` key: the nested
lookup raises `KeyError`. -/
def respMissing : Json := Json.obj []

/-- A well-formed response carrying `s` as the description string at the
expected nested position. -/
def respGood (s : String) : Json :=
  Json.obj [("items", Json.arr
    [Json.obj [("volumeInfo", Json.obj [("description", Json.str s)])]])]

/-- A well-formed response whose `items` key is bound to an empty list:
the nested lookup raises `IndexError`, which neither function catches. -/
def respEmptyItems : Json := Json.obj [("items", Json.arr [])]

/-- An HTTP layer returning the empty-`items` response to every request. -/
def fetchEmptyItems : String → Json := fun _ => respEmptyItems

/-- An HTTP layer where the ISBN `"a"` has a response missing the
description field and every other ISBN has a two-word description. -/
def fetchMissing : String → Json := fun u =>
  if u = url ++ "a" then respMissing else respGood "x y"

/-- Like `fetchMissing`, but the ISBN `"a"` has a three-word
description: the counterfactual response assignment in which the field
is present. -/
def fetchPresent : String → Json := fun u =>
  if u = url ++ "a" then respGood "w1 w2 w3" else respGood "x y"


/-! ### Basic lemmas about the embedded operations -/

/-- `String.append` is left-cancellative: two requests built from the
same base URL coincide only when the identifiers coincide. -/
theorem string_append_cancel {s x y : String} (h : s ++ x = s ++ y) :
    x = y := by
  have hd : s.data ++ x.data = s.data ++ y.data := by
    simpa [String.data_append] using congrArg String.data h
  have hxy := List.append_cancel_left hd
  cases x
  cases y
  exact congrArg String.mk hxy

/-- Unfolding lemma: the single-item function is a case split on the
outcome of the `try` block, with only `KeyError` mapped to `0`. -/
theorem get_desc_wc_parallel_def (fetch : String → Json) (isbn : String) :
    get_desc_wc_parallel fetch isbn =
      match descTokenCount (fetch (url ++ isbn)) with
      | .ok n => .ok n
      | .error .keyError => .ok 0
      | .error e => .error e := rfl

/-- Unfolding lemma for one iteration of the `get_desc_wc` loop. -/
theorem get_desc_wc_go_cons (fetch : String → Json) (isbn : String)
    (rest : List String) (wc_list : List Nat) :
    get_desc_wc_go fetch (isbn :: rest) wc_list =
      match descTokenCount (fetch (url ++ isbn)) with
      | .ok n => get_desc_wc_go fetch rest (wc_list ++ [n])
      | .error .keyError => get_desc_wc_go fetch rest (wc_list ++ [0])
      | .error e => .error e := rfl

/-- Unfolding lemma for one iteration of the traced loop. -/
theorem get_desc_wc_go_tr_cons (fetch : String → Json) (isbn : String)
    (rest : List String) (wc_list : List Nat) (reqs : List String) :
    get_desc_wc_go_tr fetch (isbn :: rest) wc_list reqs =
      match descTokenCount (fetch (url ++ isbn)) with
      | .ok n =>
          get_desc_wc_go_tr fetch rest (wc_list ++ [n]) (reqs ++ [url ++ isbn])
      | .error .keyError =>
          get_desc_wc_go_tr fetch rest (wc_list ++ [0]) (reqs ++ [url ++ isbn])
      | .error e => (reqs ++ [url ++ isbn], .error e) := rfl

/-- Unfolding lemma for `exceptMap` on a nonempty list. -/
theorem exceptMap_cons (g : α → Except ε β) (a : α) (l : List α) :
    exceptMap g (a :: l) =
      match g a with
      | .error e => .error e
      | .ok b =>
        match exceptMap g l with
        | .error e => .error e
        | .ok bs => .ok (b :: bs) := rfl

/-- A successful `descTokenCount` comes from a string description at the
nested path, and is its word count. -/
theorem descTokenCount_ok {data : Json} {n : Nat}
    (h : descTokenCount data = .ok n) :
    ∃ s, descPath data = .ok (Json.str s) ∧ n = pyWc s := by
  unfold descTokenCount at h
  cases hd : descPath data with
  | error e => rw [hd] at h; exact absurd h (by simp)
  | ok v =>
    rw [hd] at h
    cases v <;> simp [Json.splitLen] at h
    exact ⟨_, rfl, h.symm⟩

/-- When the nested lookup yields a string, `descTokenCount` returns its
word count. -/
theorem descTokenCount_of_str {data : Json} {s : String}
    (h : descPath data = .ok (Json.str s)) :
    descTokenCount data = .ok (pyWc s) := by
  unfold descTokenCount
  rw [h]
  rfl

/-- When the nested lookup raises `KeyError`, so does `descTokenCount`. -/
theorem descTokenCount_of_keyError {data : Json}
    (h : descPath data = .error .keyError) :
    descTokenCount data = .error .keyError := by
  unfold descTokenCount
  rw [h]

/-- `get_desc_wc_parallel` only looks at the response delivered for the
URL `url ++ isbn`. -/
theorem get_desc_wc_parallel_congr {fetch fetch' : String → Json}
    (isbn : String) (h : fetch (url ++ isbn) = fetch' (url ++ isbn)) :
    get_desc_wc_parallel fetch isbn = get_desc_wc_parallel fetch' isbn := by
  rw [get_desc_wc_parallel_def, get_desc_wc_parallel_def, h]

/-- Characterisation of the successful results of the single-item
function: either the word count of the description, or the `KeyError`
fallback `0`. -/
theorem get_desc_wc_parallel_ok_iff {fetch : String → Json}
    {isbn : String} {w : Nat} :
    get_desc_wc_parallel fetch isbn = .ok w ↔
      descTokenCount (fetch (url ++ isbn)) = .ok w ∨
        (descTokenCount (fetch (url ++ isbn)) = .error .keyError ∧ w = 0) := by
  rw [get_desc_wc_parallel_def]
  cases h : descTokenCount (fetch (url ++ isbn)) with
  | ok n => simp
  | error e => cases e <;> simp [eq_comm]

/-! ### The loop of `get_desc_wc` versus elementwise application -/

/-- Running the loop from an accumulator prepends the accumulator to the
result of the elementwise map of the single-item function. -/
theorem get_desc_wc_go_eq (fetch : String → Json) (l : List String) :
    ∀ acc : List Nat,
      get_desc_wc_go fetch l acc =
        match exceptMap (get_desc_wc_parallel fetch) l with
        | .ok ws => .ok (acc ++ ws)
        | .error e => .error e := by
  induction l with
  | nil => intro acc; simp [get_desc_wc_go, exceptMap]
  | cons isbn rest ih =>
    intro acc
    rw [get_desc_wc_go_cons, exceptMap_cons, get_desc_wc_parallel_def]
    cases h : descTokenCount (fetch (url ++ isbn)) with
    | ok n =>
      cases hr : exceptMap (get_desc_wc_parallel fetch) rest <;> simp [ih, hr]
    | error e =>
      cases e with
      | keyError =>
        rw [ih]
        cases exceptMap (get_desc_wc_parallel fetch) rest <;> simp
      | indexError => rfl
      | typeError => rfl
      | attributeError => rfl

/-- `get_desc_wc` is the elementwise map of `get_desc_wc_parallel`. -/
theorem get_desc_wc_eq (fetch : String → Json) (l : List String) :
    get_desc_wc fetch l = exceptMap (get_desc_wc_parallel fetch) l := by
  unfold get_desc_wc
  rw [get_desc_wc_go_eq]
  cases exceptMap (get_desc_wc_parallel fetch) l <;> simp

/-- A successful elementwise run yields one output per input. -/
theorem exceptMap_ok_length {g : α → Except ε β} :
    ∀ {l : List α} {bs : List β}, exceptMap g l = .ok bs →
      bs.length = l.length := by
  intro l
  induction l with
  | nil =>
    intro bs h
    simp only [exceptMap] at h
    cases h
    rfl
  | cons a t ih =>
    intro bs h
    rw [exceptMap_cons] at h
    cases ha : g a with
    | error e => rw [ha] at h; exact absurd h (by simp)
    | ok b =>
      rw [ha] at h
      cases ht : exceptMap g t with
      | error e => rw [ht] at h; exact absurd h (by simp)
      | ok bs' =>
        rw [ht] at h
        cases h
        simpa using ih ht

/-- A successful elementwise run computes, at every position, the value
of the function on the input at that position. -/
theorem exceptMap_ok_get {g : α → Except ε β} :
    ∀ {l : List α} {bs : List β}, exceptMap g l = .ok bs →
      ∀ i (hi : i < l.length) (hb : i < bs.length),
        g (l.get ⟨i, hi⟩) = .ok (bs.get ⟨i, hb⟩) := by
  intro l
  induction l with
  | nil => intro bs _ i hi; exact absurd hi (by simp)
  | cons a t ih =>
    intro bs h i hi hb
    rw [exceptMap_cons] at h
    cases ha : g a with
    | error e => rw [ha] at h; exact absurd h (by simp)
    | ok b =>
      rw [ha] at h
      cases ht : exceptMap g t with
      | error e => rw [ht] at h; exact absurd h (by simp)
      | ok bs' =>
        rw [ht] at h
        cases h
        cases i with
        | zero => simpa using ha
        | succ j => exact ih ht j (by simpa using hi) (by simpa using hb)

/-- If the function succeeds on every element of the list, the
elementwise run succeeds. -/
theorem exceptMap_ok_of_forall {g : α → Except ε β} :
    ∀ {l : List α}, (∀ a ∈ l, ∃ b, g a = .ok b) →
      ∃ bs, exceptMap g l = .ok bs := by
  intro l
  induction l with
  | nil => intro _; exact ⟨[], rfl⟩
  | cons a t ih =>
    intro hall
    obtain ⟨b, hb⟩ := hall a (by simp)
    obtain ⟨bs, hbs⟩ := ih (fun x hx => hall x (by simp [hx]))
    refine ⟨b :: bs, ?_⟩
    rw [exceptMap_cons, hb, hbs]

/-- Elementwise runs of functions that agree on the list coincide. -/
theorem exceptMap_congr {g g' : α → Except ε β} :
    ∀ {l : List α}, (∀ a ∈ l, g a = g' a) →
      exceptMap g l = exceptMap g' l := by
  intro l
  induction l with
  | nil => intro _; rfl
  | cons a t ih =>
    intro hall
    rw [exceptMap_cons, exceptMap_cons, hall a (by simp),
      ih (fun x hx => hall x (by simp [hx]))]

/-! ### The request trace of `get_desc_wc` -/

/-- The traced loop computes the same result as the plain loop. -/
theorem get_desc_wc_go_tr_snd (fetch : String → Json) :
    ∀ (l : List String) (acc : List Nat) (reqs : List String),
      (get_desc_wc_go_tr fetch l acc reqs).2 = get_desc_wc_go fetch l acc := by
  intro l
  induction l with
  | nil => intro acc reqs; rfl
  | cons isbn rest ih =>
    intro acc reqs
    rw [get_desc_wc_go_tr_cons, get_desc_wc_go_cons]
    cases h : descTokenCount (fetch (url ++ isbn)) with
    | ok n => simpa using ih (acc ++ [n]) (reqs ++ [url ++ isbn])
    | error e =>
      cases e with
      | keyError => simpa using ih (acc ++ [0]) (reqs ++ [url ++ isbn])
      | indexError => rfl
      | typeError => rfl
      | attributeError => rfl

/-- The URLs requested by the loop form a prefix of the per-ISBN URL
list: one request per processed position, in list order, no repeats. -/
theorem get_desc_wc_go_tr_fst_take (fetch : String → Json) :
    ∀ (l : List String) (acc : List Nat) (reqs : List String),
      ∃ k, (get_desc_wc_go_tr fetch l acc reqs).1 =
        reqs ++ (l.map (fun isbn => url ++ isbn)).take k := by
  intro l
  induction l with
  | nil => intro acc reqs; exact ⟨0, by simp [get_desc_wc_go_tr]⟩
  | cons isbn rest ih =>
    intro acc reqs
    rw [get_desc_wc_go_tr_cons]
    cases h : descTokenCount (fetch (url ++ isbn)) with
    | ok n =>
      obtain ⟨k, hk⟩ := ih (acc ++ [n]) (reqs ++ [url ++ isbn])
      exact ⟨k + 1, by simpa using hk⟩
    | error e =>
      cases e with
      | keyError =>
        obtain ⟨k, hk⟩ := ih (acc ++ [0]) (reqs ++ [url ++ isbn])
        exact ⟨k + 1, by simpa using hk⟩
      | indexError => exact ⟨1, by simp⟩
      | typeError => exact ⟨1, by simp⟩
      | attributeError => exact ⟨1, by simp⟩

/-- When the loop returns normally, its trace is exactly one request per
ISBN, in list order. -/
theorem get_desc_wc_go_tr_fst_of_ok (fetch : String → Json) :
    ∀ (l : List String) (acc : List Nat) (reqs : List String)
      (ws : List Nat), get_desc_wc_go fetch l acc = .ok ws →
      (get_desc_wc_go_tr fetch l acc reqs).1 =
        reqs ++ l.map (fun isbn => url ++ isbn) := by
  intro l
  induction l with
  | nil => intro acc reqs ws _; simp [get_desc_wc_go_tr]
  | cons isbn rest ih =>
    intro acc reqs ws hok
    rw [get_desc_wc_go_cons] at hok
    rw [get_desc_wc_go_tr_cons]
    cases h : descTokenCount (fetch (url ++ isbn)) with
    | ok n =>
      rw [h] at hok
      simpa using ih (acc ++ [n]) (reqs ++ [url ++ isbn]) ws hok
    | error e =>
      cases e with
      | keyError =>
        rw [h] at hok
        simpa using ih (acc ++ [0]) (reqs ++ [url ++ isbn]) ws hok
      | indexError => rw [h] at hok; exact absurd hok (by simp)
      | typeError => rw [h] at hok; exact absurd hok (by simp)
      | attributeError => rw [h] at hok; exact absurd hok (by simp)

/-! ### Batching: slices over a stepped range -/

theorem ceilDiv_succ {m n : Nat} (hn : 0 < n) (hm : 0 < m) :
    (m + n - 1) / n = ((m - n) + n - 1) / n + 1 := by
  have h1 : m + n - 1 = (m - 1) + n := by omega
  rw [h1, Nat.add_div_right _ hn]
  rcases le_or_lt n m with h | h
  · have : (m - n) + n - 1 = m - 1 := by omega
    rw [this]
  · have h2 : m - n = 0 := by omega
    rw [h2]
    rw [Nat.div_eq_of_lt (by omega), Nat.div_eq_of_lt (by omega)]

theorem isbn_batches_nil {n : Nat} (hn : 0 < n) : isbn_batches [] n = [] := by
  unfold isbn_batches pyRangeStep
  rw [show ((List.length ([] : List String)) + n - 1) / n = 0 from
    Nat.div_eq_of_lt (by simp; omega)]
  rfl

theorem isbn_batches_cons {l : List String} {n : Nat} (hn : 0 < n)
    (hl : l ≠ []) :
    isbn_batches l n = l.take n :: isbn_batches (l.drop n) n := by
  unfold isbn_batches pyRangeStep
  have hm : 0 < l.length := List.length_pos.mpr hl
  rw [List.length_drop, ceilDiv_succ hn hm, List.range'_succ, List.map_cons]
  congr 1
  · rw [Nat.zero_add]
    have hshift : List.range' n ((l.length - n + n - 1) / n) n =
        (List.range' 0 ((l.length - n + n - 1) / n) n).map (fun i => n + i) := by
      simpa using (List.map_add_range' n 0 ((l.length - n + n - 1) / n) n).symm
    rw [hshift, List.map_map]
    apply List.map_congr_left
    intro i _
    show pySlice l (n + i) n = pySlice (l.drop n) i n
    unfold pySlice
    rw [List.drop_drop]

theorem isbn_batches_eq_nil {l : List String} {n : Nat} (hn : 0 < n)
    (h : isbn_batches l n = []) : l = [] := by
  by_contra hl
  rw [isbn_batches_cons hn hl] at h
  cases h

theorem isbn_batches_spec {n : Nat} (hn : 0 < n) :
    ∀ (fuel : Nat) (l : List String), l.length ≤ fuel →
      (isbn_batches l n).flatten = l ∧
      (∀ c ∈ (isbn_batches l n).dropLast, c.length = n) ∧
      (∀ c, (isbn_batches l n).getLast? = some c →
        1 ≤ c.length ∧ c.length ≤ n) := by
  intro fuel
  induction fuel with
  | zero =>
    intro l hlen
    have hl : l = [] := List.length_eq_zero.mp (Nat.le_zero.mp hlen)
    subst hl
    rw [isbn_batches_nil hn]
    exact ⟨rfl, by simp, by simp⟩
  | succ fuel ih =>
    intro l hlen
    by_cases hl : l = []
    · subst hl
      rw [isbn_batches_nil hn]
      exact ⟨rfl, by simp, by simp⟩
    · rw [isbn_batches_cons hn hl]
      have hpos : 0 < l.length := List.length_pos.mpr hl
      have hdroplen : (l.drop n).length ≤ fuel := by
        rw [List.length_drop]
        omega
      obtain ⟨ihflat, ihmid, ihlast⟩ := ih (l.drop n) hdroplen
      refine ⟨?_, ?_, ?_⟩
      · rw [List.flatten_cons, ihflat, List.take_append_drop]
      · intro c hc
        cases hB : isbn_batches (l.drop n) n with
        | nil => rw [hB] at hc; exact absurd hc (by simp)
        | cons b B' =>
          rw [hB] at hc
          rw [List.dropLast_cons₂] at hc
          rcases List.mem_cons.mp hc with hceq | hctail
          · subst hceq
            have hne : l.drop n ≠ [] := by
              intro hdn
              rw [hdn, isbn_batches_nil hn] at hB
              cases hB
            have hlt : n < l.length := by
              rcases Nat.lt_or_ge n l.length with h | h
              · exact h
              · exact absurd (List.drop_eq_nil_iff.mpr h) hne
            rw [List.length_take]
            omega
          · rw [hB] at ihmid
            exact ihmid c hctail
      · intro c hc
        cases hB : isbn_batches (l.drop n) n with
        | nil =>
          rw [hB] at hc
          rw [List.getLast?_singleton] at hc
          have hdn : l.drop n = [] := isbn_batches_eq_nil hn hB
          have hle : l.length ≤ n := List.drop_eq_nil_iff.mp hdn
          have hcl : c = l.take n := by
            cases hc
            rfl
          subst hcl
          rw [List.take_of_length_le hle]
          omega
        | cons b B' =>
          rw [hB] at hc
          rw [List.getLast?_cons_cons] at hc
          rw [hB] at ihlast
          exact ihlast c hc

/-! ### File lines -/

/-- The lines yielded by file iteration concatenate back to the file's
contents: one entry per line, in file order, nothing lost or added. -/
theorem pyFileLinesAux_flatten :
    ∀ (cs acc : List Char),
      (pyFileLinesAux cs acc).flatten = acc.reverse ++ cs := by
  intro cs
  induction cs with
  | nil =>
    intro acc
    cases acc with
    | nil => rfl
    | cons c cs' => simp [pyFileLinesAux]
  | cons c cs ih =>
    intro acc
    by_cases h : c = '\n'
    · subst h
      simp [pyFileLinesAux, ih]
    · rw [show pyFileLinesAux (c :: cs) acc = pyFileLinesAux cs (c :: acc) from
        by simp [pyFileLinesAux, h]]
      rw [ih]
      simp

/-- Every element of a successful elementwise run succeeds on its own. -/
theorem exceptMap_ok_mem {g : α → Except ε β} {l : List α} {bs : List β}
    (h : exceptMap g l = .ok bs) {a : α} (ha : a ∈ l) :
    ∃ b, g a = .ok b := by
  obtain ⟨⟨i, hi⟩, rfl⟩ := List.mem_iff_get.mp ha
  have hlen : bs.length = l.length := exceptMap_ok_length h
  exact ⟨bs.get ⟨i, by omega⟩, exceptMap_ok_get h i hi (by omega)⟩

/-- The two concrete HTTP layers agree away from the distinguished
ISBN `"a"`. -/
theorem fetch_agree (y : String) (hy : y ≠ "a") :
    fetchMissing (url ++ y) = fetchPresent (url ++ y) := by
  unfold fetchMissing fetchPresent
  rw [if_neg, if_neg] <;> exact fun h => hy (string_append_cancel h)

/-! ### Claims -/

/-- C1 (counterexample): a well-formed response whose `items` is the
empty list makes the nested lookup fail with `IndexError`, yet
`get_desc_wc_parallel` does not return zero — it propagates the
exception.  This refutes "for every response in which looking up that
nested field fails, it returns zero". -/
theorem claim_C1_counterexample :
    descPath respEmptyItems = .error .indexError ∧
    get_desc_wc_parallel fetchEmptyItems "0435910108" ≠ .ok 0 ∧
    get_desc_wc_parallel fetchEmptyItems "0435910108" =
      .error .indexError :=
  ⟨rfl, fun h => Except.noConfusion h, rfl⟩

/-- C1 (amended): when the JSON response contains the nested field
`data['items'][0]['volumeInfo']['description']` as a string,
`get_desc_wc_parallel` returns the number of whitespace-separated tokens
of that string; and when looking up that nested field fails with a
`KeyError` (a missing key), it returns zero.  Other lookup failures,
such as the `IndexError` from an empty `items` list, are not caught and
propagate. -/
theorem claim_C1 (fetch : String → Json) (isbn : String) :
    (∀ s, descPath (fetch (url ++ isbn)) = .ok (Json.str s) →
      get_desc_wc_parallel fetch isbn = .ok (pyWc s)) ∧
    (descPath (fetch (url ++ isbn)) = .error .keyError →
      get_desc_wc_parallel fetch isbn = .ok 0) := by
  constructor
  · intro s hs
    rw [get_desc_wc_parallel_def, descTokenCount_of_str hs]
  · intro hk
    rw [get_desc_wc_parallel_def, descTokenCount_of_keyError hk]

/-- C1 (witness): the amended statement evaluated on a concrete
three-word description and on a concrete response missing the field. -/
theorem claim_C1_witness :
    get_desc_wc_parallel (fun _ => respGood "a b c") "0435910108" =
      .ok (pyWc "a b c") ∧
    get_desc_wc_parallel (fun _ => respMissing) "0435910108" = .ok 0 :=
  ⟨(claim_C1 (fun _ => respGood "a b c") "0435910108").1 "a b c" rfl,
   (claim_C1 (fun _ => respMissing) "0435910108").2 rfl⟩

/-- C2: if the response for ISBN `x` is missing the description field
(`KeyError` on the nested lookup), `get_desc_wc` records zero for every
occurrence of `x` and continues: whenever the run with the
field-carrying counterfactual responses succeeds, the actual run also
succeeds and agrees with it at every position holding a different
ISBN. -/
theorem claim_C2 (fetch fetch' : String → Json) (x : String)
    (l : List String) (ws' : List Nat)
    (hmiss : descPath (fetch (url ++ x)) = .error .keyError)
    (hpres : ∃ s, descPath (fetch' (url ++ x)) = .ok (Json.str s))
    (hagree : ∀ y, y ≠ x → fetch (url ++ y) = fetch' (url ++ y))
    (hok : get_desc_wc fetch' l = .ok ws') :
    ∃ ws, get_desc_wc fetch l = .ok ws ∧ ws.length = l.length ∧
      ws'.length = l.length ∧
      ∀ i (hi : i < l.length) (hw : i < ws.length) (hw' : i < ws'.length),
        (l.get ⟨i, hi⟩ = x → ws.get ⟨i, hw⟩ = 0) ∧
        (l.get ⟨i, hi⟩ ≠ x → ws.get ⟨i, hw⟩ = ws'.get ⟨i, hw'⟩) := by
  clear hpres
  rw [get_desc_wc_eq] at hok
  have hx : get_desc_wc_parallel fetch x = .ok 0 := by
    rw [get_desc_wc_parallel_def, descTokenCount_of_keyError hmiss]
  have hcongr : ∀ y, y ≠ x →
      get_desc_wc_parallel fetch y = get_desc_wc_parallel fetch' y :=
    fun y hy => get_desc_wc_parallel_congr y (hagree y hy)
  have hall : ∀ a ∈ l, ∃ b, get_desc_wc_parallel fetch a = .ok b := by
    intro a ha
    by_cases hax : a = x
    · exact ⟨0, hax ▸ hx⟩
    · obtain ⟨b, hb⟩ := exceptMap_ok_mem hok ha
      exact ⟨b, (hcongr a hax).trans hb⟩
  obtain ⟨ws, hws⟩ := exceptMap_ok_of_forall hall
  have hlen : ws.length = l.length := exceptMap_ok_length hws
  have hlen' : ws'.length = l.length := exceptMap_ok_length hok
  refine ⟨ws, by rw [get_desc_wc_eq]; exact hws, hlen, hlen', ?_⟩
  intro i hi hw hw'
  have hgi := exceptMap_ok_get hws i hi hw
  have hgi' := exceptMap_ok_get hok i hi hw'
  constructor
  · intro hix
    rw [hix, hx] at hgi
    exact (Except.ok.injEq _ _).mp hgi.symm
  · intro hix
    rw [hcongr _ hix, hgi'] at hgi
    exact (Except.ok.injEq _ _).mp hgi.symm

/-- C2 (witness): the theorem applied to concrete response assignments
over the ISBN list `["a", "b"]`, where `"a"`'s response is missing the
field in one assignment and carries a three-word description in the
other, and `"b"`'s response has a two-word description in both. -/
theorem claim_C2_witness :
    ∃ ws, get_desc_wc fetchMissing ["a", "b"] = .ok ws ∧
      ws.length = (["a", "b"] : List String).length ∧
      ([3, 2] : List Nat).length = (["a", "b"] : List String).length ∧
      ∀ i (hi : i < (["a", "b"] : List String).length)
        (hw : i < ws.length) (hw' : i < ([3, 2] : List Nat).length),
        ((["a", "b"] : List String).get ⟨i, hi⟩ = "a" →
          ws.get ⟨i, hw⟩ = 0) ∧
        ((["a", "b"] : List String).get ⟨i, hi⟩ ≠ "a" →
          ws.get ⟨i, hw⟩ = ([3, 2] : List Nat).get ⟨i, hw'⟩) :=
  claim_C2 fetchMissing fetchPresent "a" ["a", "b"] [3, 2]
    rfl ⟨"w1 w2 w3", rfl⟩ fetch_agree rfl

/-- C3: whenever `get_desc_wc` returns, it returns one word count per
input ISBN, in order: the output has the input's length and the `i`-th
output is the count derived from the response for the `i`-th ISBN
(the token count of its description, or zero on a missing key); on the
empty input list the result is the empty list. -/
theorem claim_C3 :
    (∀ (fetch : String → Json) (l : List String) (ws : List Nat),
      get_desc_wc fetch l = .ok ws →
        ws.length = l.length ∧
        ∀ i (hi : i < l.length) (hw : i < ws.length),
          descTokenCount (fetch (url ++ l.get ⟨i, hi⟩)) =
              .ok (ws.get ⟨i, hw⟩) ∨
            (descTokenCount (fetch (url ++ l.get ⟨i, hi⟩)) =
                .error .keyError ∧ ws.get ⟨i, hw⟩ = 0)) ∧
    ∀ fetch : String → Json, get_desc_wc fetch [] = .ok [] := by
  constructor
  · intro fetch l ws h
    rw [get_desc_wc_eq] at h
    refine ⟨exceptMap_ok_length h, ?_⟩
    intro i hi hw
    exact get_desc_wc_parallel_ok_iff.mp (exceptMap_ok_get h i hi hw)
  · intro fetch
    rfl

/-- C3 (witness): evaluated on a concrete two-ISBN run in which the
first response is missing the field and the second has a two-word
description. -/
theorem claim_C3_witness :
    ([0, 2] : List Nat).length = (["a", "b"] : List String).length ∧
    ∀ i (hi : i < (["a", "b"] : List String).length)
      (hw : i < ([0, 2] : List Nat).length),
      descTokenCount (fetchMissing
          (url ++ (["a", "b"] : List String).get ⟨i, hi⟩)) =
          .ok (([0, 2] : List Nat).get ⟨i, hw⟩) ∨
        (descTokenCount (fetchMissing
            (url ++ (["a", "b"] : List String).get ⟨i, hi⟩)) =
            .error .keyError ∧ ([0, 2] : List Nat).get ⟨i, hw⟩ = 0) :=
  claim_C3.1 fetchMissing ["a", "b"] [0, 2] rfl

/-- C4: under a fixed assignment of responses, `get_desc_wc` on a list
is exactly the elementwise application of `get_desc_wc_parallel` to the
list. -/
theorem claim_C4 (fetch : String → Json) (l : List String) :
    get_desc_wc fetch l = exceptMap (get_desc_wc_parallel fetch) l :=
  get_desc_wc_eq fetch l

/-- C5: the URL of every GET request is the fixed Google Books API base
string concatenated with the identifier being processed: the base is
the literal from the notebook; in `get_desc_wc`, the identifiers are
processed in list order, so the `i`-th request of the trace is
`url ++ l[i]`, the URL built from the `i`-th identifier itself; and
`get_desc_wc_parallel` depends only on the response delivered at
`url ++ isbn`, its one request URL. -/
theorem claim_C5 :
    url = "https://www.googleapis.com/books/v1/volumes?q=isbn:" ∧
    (∀ (fetch : String → Json) (l : List String),
      (get_desc_wc_requests fetch l).length ≤ l.length ∧
      ∀ i (hi : i < (get_desc_wc_requests fetch l).length)
        (hl : i < l.length),
        (get_desc_wc_requests fetch l).get ⟨i, hi⟩ =
          url ++ l.get ⟨i, hl⟩) ∧
    ∀ (fetch fetch' : String → Json) (isbn : String),
      fetch (url ++ isbn) = fetch' (url ++ isbn) →
        get_desc_wc_parallel fetch isbn = get_desc_wc_parallel fetch' isbn := by
  refine ⟨rfl, ?_, fun _ _ => get_desc_wc_parallel_congr⟩
  intro fetch l
  obtain ⟨k, hk⟩ := get_desc_wc_go_tr_fst_take fetch l [] []
  have hreq : get_desc_wc_requests fetch l =
      (l.map (fun isbn => url ++ isbn)).take k := by
    unfold get_desc_wc_requests
    simpa using hk
  constructor
  · rw [hreq, List.length_take, List.length_map]
    omega
  · intro i hi hl
    rw [hreq] at hi
    simp only [hreq, List.get_eq_getElem, List.getElem_take, List.getElem_map]

/-- C5 (witness): on the two-ISBN list `["a", "b"]`, the second request
of the trace is the URL built from the second identifier. -/
theorem claim_C5_witness :
    (get_desc_wc_requests fetchMissing ["a", "b"]).get ⟨1, by decide⟩ =
      url ++ (["a", "b"] : List String).get ⟨1, by decide⟩ :=
  (claim_C5.2.1 fetchMissing ["a", "b"]).2 1 (by decide) (by decide)

/-- C6 (counterexample): with the empty-`items` responses, the call on
`["a", "b"]` aborts on the uncaught `IndexError` after the first
request, so the request trace is not one GET per listed ISBN. -/
theorem claim_C6_counterexample :
    get_desc_wc_requests fetchEmptyItems ["a", "b"] ≠
      ["a", "b"].map (fun isbn => url ++ isbn) := by decide

/-- C6 (amended): `get_desc_wc` issues at most one GET request per ISBN,
in list order and with no retries — the trace is always a prefix of the
per-ISBN URL list — and exactly one per ISBN whenever the call returns
normally; when an uncaught exception aborts the loop, the ISBNs after
the failing position are never requested. -/
theorem claim_C6 (fetch : String → Json) (l : List String) :
    (∃ k, get_desc_wc_requests fetch l =
      (l.map (fun isbn => url ++ isbn)).take k) ∧
    ∀ ws : List Nat, get_desc_wc fetch l = .ok ws →
      get_desc_wc_requests fetch l = l.map (fun isbn => url ++ isbn) := by
  constructor
  · obtain ⟨k, hk⟩ := get_desc_wc_go_tr_fst_take fetch l [] []
    exact ⟨k, by simpa [get_desc_wc_requests] using hk⟩
  · intro ws hok
    unfold get_desc_wc_requests
    simpa using get_desc_wc_go_tr_fst_of_ok fetch l [] [] ws hok

/-- C6 (witness): a normally-returning two-ISBN run issues exactly the
two per-ISBN URLs, in order. -/
theorem claim_C6_witness :
    get_desc_wc_requests fetchMissing ["a", "b"] =
      ["a", "b"].map (fun isbn => url ++ isbn) :=
  (claim_C6 fetchMissing ["a", "b"]).2 [0, 2] rfl

/-- C7: reading the identifier file yields one entry per line of the
file, in file order — the lines concatenate back to the file's
characters — and each entry is the corresponding line stripped of
leading and trailing whitespace (the trailing newline included). -/
theorem claim_C7 (s : String) :
    (pyFileLinesAux s.data []).flatten = s.data ∧
    (isbn_list s).length = (pyFileLines s).length ∧
    ∀ i (h1 : i < (isbn_list s).length) (h2 : i < (pyFileLines s).length),
      (isbn_list s).get ⟨i, h1⟩ = pyStrip ((pyFileLines s).get ⟨i, h2⟩) := by
  refine ⟨by simpa using pyFileLinesAux_flatten s.data [], ?_, ?_⟩
  · unfold isbn_list
    rw [List.length_map]
  · intro i h1 h2
    unfold isbn_list
    rw [List.get_map]

/-- C7 (witness): evaluated on a concrete two-line file whose first
line carries surrounding whitespace. -/
theorem claim_C7_witness :
    (pyFileLinesAux (" ab \ncd" : String).data []).flatten =
      (" ab \ncd" : String).data ∧
    (isbn_list " ab \ncd").get ⟨0, by decide⟩ =
      pyStrip ((pyFileLines " ab \ncd").get ⟨0, by decide⟩) :=
  ⟨(claim_C7 " ab \ncd").1,
   (claim_C7 " ab \ncd").2.2 0 (by decide) (by decide)⟩

/-- C8: the defensive fallback of both functions catches only
`KeyError`: on a well-formed response binding `'items'` to the empty
list, the nested lookup raises `IndexError`, and both functions
terminate with that exception instead of returning zero, while the
plain missing-key response is caught and yields zero. -/
theorem claim_C8 :
    descTokenCount respEmptyItems = .error .indexError ∧
    get_desc_wc_parallel fetchEmptyItems "0435910108" =
      .error .indexError ∧
    get_desc_wc fetchEmptyItems ["0435910108"] = .error .indexError ∧
    get_desc_wc_parallel (fun _ => respMissing) "0435910108" = .ok 0 :=
  ⟨rfl, rfl, rfl, rfl⟩

/-- C9: for every batch size `n > 0`, the slices
`[isbn_list[i:i + n] for i in range(0, len(isbn_list), n)]` partition
the list: their concatenation is the original list, every chunk except
possibly the last has length exactly `n`, and the last has length
between `1` and `n`. -/
theorem claim_C9 (l : List String) (n : Nat) (hn : 0 < n) :
    (isbn_batches l n).flatten = l ∧
    (∀ c ∈ (isbn_batches l n).dropLast, c.length = n) ∧
    (∀ c, (isbn_batches l n).getLast? = some c →
      1 ≤ c.length ∧ c.length ≤ n) :=
  isbn_batches_spec hn l.length l le_rfl

/-- C9 (witness): the partition property evaluated at a three-element
list with batch size two. -/
theorem claim_C9_witness :
    (isbn_batches ["a", "b", "c"] 2).flatten = ["a", "b", "c"] ∧
    (∀ c ∈ (isbn_batches ["a", "b", "c"] 2).dropLast, c.length = 2) ∧
    (∀ c, (isbn_batches ["a", "b", "c"] 2).getLast? = some c →
      1 ≤ c.length ∧ c.length ≤ 2) :=
  claim_C9 ["a", "b", "c"] 2 (by decide)

/-- C10: every word count in a normally-returned list is a natural
number that is either the `KeyError` fallback zero or the length of the
whitespace-split token list of the description string found at the
nested path of the corresponding response. -/
theorem claim_C10 (fetch : String → Json) (l : List String)
    (ws : List Nat) (h : get_desc_wc fetch l = .ok ws) :
    ws.length = l.length ∧
    ∀ i (hi : i < l.length) (hw : i < ws.length),
      ws.get ⟨i, hw⟩ = 0 ∨
        ∃ s, descPath (fetch (url ++ l.get ⟨i, hi⟩)) = .ok (Json.str s) ∧
          ws.get ⟨i, hw⟩ = pyWc s := by
  rw [get_desc_wc_eq] at h
  refine ⟨exceptMap_ok_length h, ?_⟩
  intro i hi hw
  rcases get_desc_wc_parallel_ok_iff.mp (exceptMap_ok_get h i hi hw) with
    hok | ⟨_, hzero⟩
  · obtain ⟨s, hs, hv⟩ := descTokenCount_ok hok
    exact Or.inr ⟨s, hs, hv⟩
  · exact Or.inl hzero

/-- C10 (witness): evaluated on a run whose first response is missing
the field (fallback zero) and whose second carries a two-word
description. -/
theorem claim_C10_witness :
    ([0, 2] : List Nat).length = (["a", "b"] : List String).length ∧
    ∀ i (hi : i < (["a", "b"] : List String).length)
      (hw : i < ([0, 2] : List Nat).length),
      ([0, 2] : List Nat).get ⟨i, hw⟩ = 0 ∨
        ∃ s, descPath (fetchMissing
            (url ++ (["a", "b"] : List String).get ⟨i, hi⟩)) =
            .ok (Json.str s) ∧
          ([0, 2] : List Nat).get ⟨i, hw⟩ = pyWc s :=
  claim_C10 fetchMissing ["a", "b"] [0, 2] rfl
